import Mathlib

/-!
Verification of `script/generate_symbol_table.py`: a fetch → parse → write
pipeline that normalizes exchange instrument metadata into CSV records.

The Python script is embedded shallowly:
* JSON payload fragments become structures whose fields mirror exactly the
  keys the script reads.  A key read with `d.get(k)` (which yields `None`
  when absent) becomes an `Option` field; a key read with `d[k]` (which
  raises `KeyError` when absent) also becomes an `Option` field, and the
  read is modelled by `getKey`, turning a missing key into an `Except`
  error — mirroring the exception that `main` catches generically.
* `requests.get` is replaced by oracles: a scripted response (or network
  failure) per endpoint.  A `raise_for_status`/transport failure is an
  `Except.error` carrying the exception message.
* The filesystem is a finite map from paths to row lists plus a set of
  existing directories; `os.makedirs` and writing the CSV mutate it.
* `sys.exit(n)` becomes an exit code recorded in the run result.
-/

/-- A normalized instrument record: the six CSV columns produced by every
`parse_symbols` variant. -/
structure Record where
  symbol : String
  base : String
  quote : String
  instrument : String
  priceTick : String
  szTick : String
deriving Repr, DecidableEq

/-- One entry of a Binance `filters` array.  The script reads
`filter_info['filterType']` unconditionally (a filter object without the
key would raise; such objects are outside the payload shapes modelled
here), and `tickSize` / `stepSize` via `.get` with default `''`. -/
structure BnFilter where
  filterType : String
  tickSize : Option String
  stepSize : Option String
deriving Repr, DecidableEq

/-- One entry of a Binance `symbols` array.  `status` is read with `.get`;
`symbol`, `baseAsset`, `quoteAsset` are read with `['...']` (so a missing
key raises, modelled via `getKey`); `filters` is read with
`.get('filters', [])`, so an absent array is the empty list. -/
structure BnSymbolInfo where
  status : Option String
  symbol : Option String
  baseAsset : Option String
  quoteAsset : Option String
  filters : List BnFilter
deriving Repr, DecidableEq

/-- A Binance exchange-info payload: the `symbols` array
(`exchange_info.get('symbols', [])`). -/
structure BnExchangeInfo where
  symbols : List BnSymbolInfo
deriving Repr, DecidableEq

/-- Bybit `priceFilter` object; `tickSize` read via `.get` with default `''`. -/
structure BybitPriceFilter where
  tickSize : Option String
deriving Repr, DecidableEq

/-- Bybit `lotSizeFilter` object; both keys read via `.get` with default `''`. -/
structure BybitLotSizeFilter where
  qtyStep : Option String
  basePrecision : Option String
deriving Repr, DecidableEq

/-- One entry of a Bybit `result.list` array.  `status`, `priceFilter`,
`lotSizeFilter` and `category` are read with `.get` (the two filters with
default `{}`, `category` with default `'spot'`); `symbol`, `baseCoin`,
`quoteCoin` with `['...']`. -/
structure BybitInst where
  status : Option String
  symbol : Option String
  baseCoin : Option String
  quoteCoin : Option String
  priceFilter : Option BybitPriceFilter
  lotSizeFilter : Option BybitLotSizeFilter
  category : Option String
deriving Repr, DecidableEq

/-- The `result` object of a Bybit instruments-info response: the script
reads `result.list` (default `[]`) and `result.nextPageCursor` (default
`None`). -/
structure BybitResult where
  list : List BybitInst
  nextPageCursor : Option String
deriving Repr, DecidableEq

/-- A Bybit exchange-info payload as handed to `parse_symbols`:
`{'result': {'list': ...}}`. -/
structure BybitExchangeInfo where
  result : BybitResult
deriving Repr, DecidableEq

/-- Python `d['k']` on our optional fields: a present value is returned,
a missing key raises `KeyError` (an `Except.error` here, caught by the
generic handler in `main`). -/
def getKey (v : Option String) (k : String) : Except String String :=
  match v with
  | some s => Except.ok s
  | none => Except.error ("KeyError: " ++ k)

/-- Runs a per-element parser over a list and concatenates the emitted
records, propagating the first raised error — the observable behaviour of
the Python `for` loops in `parse_symbols` (a mid-loop exception discards
the partial list, since `main` catches it before any write). -/
def collectRecords (f : α → Except String (List Record)) : List α → Except String (List Record)
  | [] => Except.ok []
  | x :: xs =>
    match f x with
    | Except.error e => Except.error e
    | Except.ok r =>
      match collectRecords f xs with
      | Except.error e => Except.error e
      | Except.ok rest => Except.ok (r ++ rest)

/-- The filter scan shared by both Binance parsers: one pass over
`filters`, remembering the PRICE_FILTER and LOT_SIZE entries seen so far
(a later entry with the same tag overwrites an earlier one, exactly as the
Python loop reassigns `price_filter` / `qty_filter`). -/
def scanFilters (filters : List BnFilter) : Option BnFilter × Option BnFilter :=
  filters.foldl
    (fun acc filter_info =>
      if filter_info.filterType = "PRICE_FILTER" then (some filter_info, acc.2)
      else if filter_info.filterType = "LOT_SIZE" then (acc.1, some filter_info)
      else acc)
    (none, none)

/-- Body of the Binance Spot `parse_symbols` loop for one `symbol_info`:
skip unless `status == 'TRADING'`; emit one record iff both filters were
found (a found filter dict is always truthy since it holds `filterType`).
The `instrument` column is the constant `'spot'`. -/
def BinanceSpotFetcher.parseOne (symbol_info : BnSymbolInfo) : Except String (List Record) :=
  if symbol_info.status ≠ some "TRADING" then Except.ok []
  else
    match scanFilters symbol_info.filters with
    | (some price_filter, some qty_filter) =>
      match getKey symbol_info.symbol "symbol" with
      | Except.error e => Except.error e
      | Except.ok sym =>
        match getKey symbol_info.baseAsset "baseAsset" with
        | Except.error e => Except.error e
        | Except.ok base =>
          match getKey symbol_info.quoteAsset "quoteAsset" with
          | Except.error e => Except.error e
          | Except.ok quote =>
            Except.ok [{ symbol := sym, base := base, quote := quote, instrument := "spot",
                         priceTick := price_filter.tickSize.getD "",
                         szTick := qty_filter.stepSize.getD "" }]
    | _ => Except.ok []

/-- `BinanceSpotFetcher.parse_symbols`. -/
def BinanceSpotFetcher.parse_symbols (exchange_info : BnExchangeInfo) : Except String (List Record) :=
  collectRecords BinanceSpotFetcher.parseOne exchange_info.symbols

/-- Body of the Binance Perpetual `parse_symbols` loop for one
`symbol_info`: the source duplicates the Spot logic verbatim except that
the `instrument` column is `'perp'`. -/
def BinancePerpFetcher.parseOne (symbol_info : BnSymbolInfo) : Except String (List Record) :=
  if symbol_info.status ≠ some "TRADING" then Except.ok []
  else
    match scanFilters symbol_info.filters with
    | (some price_filter, some qty_filter) =>
      match getKey symbol_info.symbol "symbol" with
      | Except.error e => Except.error e
      | Except.ok sym =>
        match getKey symbol_info.baseAsset "baseAsset" with
        | Except.error e => Except.error e
        | Except.ok base =>
          match getKey symbol_info.quoteAsset "quoteAsset" with
          | Except.error e => Except.error e
          | Except.ok quote =>
            Except.ok [{ symbol := sym, base := base, quote := quote, instrument := "perp",
                         priceTick := price_filter.tickSize.getD "",
                         szTick := qty_filter.stepSize.getD "" }]
    | _ => Except.ok []

/-- `BinancePerpFetcher.parse_symbols`. -/
def BinancePerpFetcher.parse_symbols (exchange_info : BnExchangeInfo) : Except String (List Record) :=
  collectRecords BinancePerpFetcher.parseOne exchange_info.symbols

/-- Body of the Bybit `parse_symbols` loop for one `symbol_info`:
skip unless `status == 'Trading'`; map category to the instrument
taxonomy; choose `szTick` by category; always emit a record (no gating on
the presence of either filter, whose absence defaults to `{}`). -/
def BybitFetcher.parseOne (symbol_info : BybitInst) : Except String (List Record) :=
  if symbol_info.status ≠ some "Trading" then Except.ok []
  else
    let price_filter := symbol_info.priceFilter.getD { tickSize := none }
    let lot_size_filter := symbol_info.lotSizeFilter.getD { qtyStep := none, basePrecision := none }
    let category := symbol_info.category.getD "spot"
    let instrument :=
      if category = "spot" then "spot"
      else if category = "linear" then "perp"
      else if category = "inverse" then "inverse"
      else category
    let sz_tick :=
      if category = "linear" ∨ category = "inverse" then lot_size_filter.qtyStep.getD ""
      else lot_size_filter.basePrecision.getD ""
    match getKey symbol_info.symbol "symbol" with
    | Except.error e => Except.error e
    | Except.ok sym =>
      match getKey symbol_info.baseCoin "baseCoin" with
      | Except.error e => Except.error e
      | Except.ok base =>
        match getKey symbol_info.quoteCoin "quoteCoin" with
        | Except.error e => Except.error e
        | Except.ok quote =>
          Except.ok [{ symbol := sym, base := base, quote := quote, instrument := instrument,
                       priceTick := price_filter.tickSize.getD "", szTick := sz_tick }]

/-- `BybitFetcher.parse_symbols`: iterates `result.list`. -/
def BybitFetcher.parse_symbols (exchange_info : BybitExchangeInfo) : Except String (List Record) :=
  collectRecords BybitFetcher.parseOne exchange_info.result.list

/-- The pagination stop test of `BybitFetcher.get_exchange_info`: after
appending a page the loop breaks when `not next_cursor or not
page_symbols`, i.e. the cursor is absent or the empty string, or the page
carried zero instruments. -/
def stopPage (page : BybitResult) : Bool :=
  (match page.nextPageCursor with
   | none => true
   | some c => c = "") || page.list.isEmpty

/-- `symbol['category'] = category`: tag an instrument with its source
category before accumulating it. -/
def tagCategory (category : String) (symbol_info : BybitInst) : BybitInst :=
  { symbol_info with category := some category }

/-- One category of `BybitFetcher.get_exchange_info` run against a
scripted list of responses (consumed in request order; an `Except.error`
entry is a transport failure / `raise_for_status` on that request).  Each
fetched page's instruments are tagged and appended before the stop test,
so the stopping page's instruments are included.  Returns the number of
requests issued together with the accumulated instruments.  An exhausted
script returns the accumulator — the source would instead issue a further
request, so theorems about this function assume the script contains a
stopping page. -/
def BybitFetcher.fetchCategory (category : String) : List (Except String BybitResult) → Nat × Except String (List BybitInst)
  | [] => (0, Except.ok [])
  | resp :: rest =>
    match resp with
    | Except.error e => (1, Except.error e)
    | Except.ok page =>
      let page_symbols := page.list.map (tagCategory category)
      if stopPage page then (1, Except.ok page_symbols)
      else
        match BybitFetcher.fetchCategory category rest with
        | (n, Except.error e) => (n + 1, Except.error e)
        | (n, Except.ok tail) => (n + 1, Except.ok (page_symbols ++ tail))

/-- `BybitFetcher.get_exchange_info`: fetches the categories in the order
spot, linear, inverse, concatenating all pages' tagged instruments, and
wraps them as `{'result': {'list': all_symbols}}` (no cursor field).  The
script maps each category name to its sequence of responses. -/
def BybitFetcher.get_exchange_info (script : String → List (Except String BybitResult)) : Nat × Except String BybitExchangeInfo :=
  match BybitFetcher.fetchCategory "spot" (script "spot") with
  | (n1, Except.error e) => (n1, Except.error e)
  | (n1, Except.ok spotList) =>
    match BybitFetcher.fetchCategory "linear" (script "linear") with
    | (n2, Except.error e) => (n1 + n2, Except.error e)
    | (n2, Except.ok linearList) =>
      match BybitFetcher.fetchCategory "inverse" (script "inverse") with
      | (n3, Except.error e) => (n1 + n2 + n3, Except.error e)
      | (n3, Except.ok inverseList) =>
        (n1 + n2 + n3,
         Except.ok { result := { list := spotList ++ linearList ++ inverseList, nextPageCursor := none } })

/-- Modelled from the spec's pagination contract, for comparison with the
code: the prefix of the scripted pages the fetcher should consume — every
page up to and including the first one that triggers the stop test (all
pages if none does). -/
def specPagesFetched : List BybitResult → List BybitResult
  | [] => []
  | page :: rest => if stopPage page then [page] else page :: specPagesFetched rest

/-- The supported market names: the keys of the `fetchers` dict in
`get_fetcher`, in insertion order (as rendered by `list(fetchers.keys())`). -/
def supported_markets : List String :=
  ["binance", "binanceperp", "bybit"]

/-- The fetcher variant chosen for a market name. -/
inductive FetcherKind
  | binance
  | binanceperp
  | bybit
deriving Repr, DecidableEq

/-- The `ValueError` raised by `get_fetcher` for an unsupported market:
its message interpolates the offending name and the list of supported
names; modelled structurally as the pair of those two data. -/
structure ConfigError where
  unsupported : String
  supported : List String
deriving Repr, DecidableEq

/-- Rendering of the `ValueError` message (Python writes each supported
name inside quotes; the quoting is elided here). -/
def ConfigError.message (e : ConfigError) : String :=
  "Unsupported market: " ++ e.unsupported ++ ". Supported markets: [" ++
    String.intercalate ", " e.supported ++ "]"

/-- `get_fetcher`: dictionary lookup over the three supported names; an
unknown name raises a `ValueError` listing the supported markets. -/
def get_fetcher (market : String) : Except ConfigError FetcherKind :=
  if market = "binance" then Except.ok FetcherKind.binance
  else if market = "binanceperp" then Except.ok FetcherKind.binanceperp
  else if market = "bybit" then Except.ok FetcherKind.bybit
  else Except.error { unsupported := market, supported := supported_markets }

/-- `os.path.dirname` for POSIX paths: everything before the final slash;
trailing slashes of the head are stripped unless the head is all slashes;
a path without a slash has dirname `''`. -/
def dirname (p : String) : String :=
  let rev := p.data.reverse
  let rest := rev.dropWhile (fun c => c ≠ '/')
  if rest.isEmpty then ""
  else if rest.all (fun c => c = '/') then String.mk rest.reverse
  else String.mk ((rest.dropWhile (fun c => c = '/')).reverse)

/-- The chain of directories `os.makedirs(d, exist_ok=True)` ensures to
exist: `d` itself and every ancestor obtained by iterating `dirname`
(fuel-bounded; the chain is strictly shortening until it reaches `''` or
a fixed point such as `'/'`). -/
def makedirsChain : Nat → String → List String
  | 0, _ => []
  | fuel + 1, d =>
    if d = "" then []
    else
      let parent := dirname d
      if parent = d then [d]
      else d :: makedirsChain fuel parent

/-- All directories created by `os.makedirs(d, exist_ok=True)`. -/
def makedirs (d : String) : List String :=
  makedirsChain (d.length + 1) d

/-- The filesystem: existing directories and files.  A file's content is
its rows, each row the list of its column values (the CSV quoting applied
by `csv.DictWriter` when serializing a row to bytes is not modelled). -/
structure FS where
  dirs : List String
  files : List (String × List (List String))
deriving Repr, DecidableEq

/-- Content of the file at `p`, if one exists. -/
def FS.lookupFile (fs : FS) (p : String) : Option (List (List String)) :=
  (fs.files.find? (fun f => f.1 = p)).map (fun f => f.2)

/-- `open(p, 'w')` + write: replaces whatever was at `p`. -/
def FS.setFile (fs : FS) (p : String) (content : List (List String)) : FS :=
  { fs with files := (p, content) :: fs.files.filter (fun f => ¬ f.1 = p) }

/-- The fixed CSV header: the `fieldnames` list of `write_csv`. -/
def fieldnames : List String :=
  ["symbol", "base", "quote", "instrument", "priceTick", "szTick"]

/-- The data row `csv.DictWriter.writerow` emits for one record: its six
fields in `fieldnames` order. -/
def recordRow (r : Record) : List String :=
  [r.symbol, r.base, r.quote, r.instrument, r.priceTick, r.szTick]

/-- `write_csv`: ensure the output directory exists when the path has one
(`os.path.dirname` nonempty), then write header plus one row per record,
in input order, overwriting any existing file. -/
def write_csv (symbols : List Record) (output_path : String) (fs : FS) : FS :=
  let output_dir := dirname output_path
  let fs1 :=
    if output_dir ≠ "" then { fs with dirs := makedirs output_dir ++ fs.dirs }
    else fs
  fs1.setFile output_path (fieldnames :: symbols.map recordRow)

/-- The exception `main` catches: the dedicated
`requests.exceptions.RequestException` handler, or the generic `Exception`
handler (which receives both the `ValueError` from `get_fetcher` and any
other error, e.g. a `KeyError` during parsing). -/
inductive PipelineError
  | requestError (msg : String)
  | configError (e : ConfigError)
  | genericError (msg : String)
deriving Repr, DecidableEq

/-- Which handler caught the error: `True` exactly for the
`requests.exceptions.RequestException` branch. -/
def PipelineError.isNetwork : PipelineError → Bool
  | PipelineError.requestError _ => true
  | _ => false

/-- The line `main` prints to stderr for each error kind. -/
def PipelineError.printed : PipelineError → String
  | PipelineError.requestError m => "Error fetching data: " ++ m
  | PipelineError.configError e => "Error: " ++ e.message
  | PipelineError.genericError m => "Error: " ++ m

/-- The scripted network: one response (payload or failure) per Binance
endpoint, and per-category response sequences for Bybit pagination. -/
structure NetEnv where
  binanceSpotResp : Except String BnExchangeInfo
  binancePerpResp : Except String BnExchangeInfo
  bybitScript : String → List (Except String BybitResult)

/-- `fetcher.get_exchange_info()` followed by
`fetcher.parse_symbols(exchange_info)` for the selected fetcher, against
the scripted network: returns the number of network requests issued and
either the parsed records or the raised error, classified by the handler
that would catch it in `main`. -/
def runFetchParse (fetcher : FetcherKind) (env : NetEnv) : Nat × Except PipelineError (List Record) :=
  match fetcher with
  | FetcherKind.binance =>
    match env.binanceSpotResp with
    | Except.error e => (1, Except.error (PipelineError.requestError e))
    | Except.ok info => (1, (BinanceSpotFetcher.parse_symbols info).mapError PipelineError.genericError)
  | FetcherKind.binanceperp =>
    match env.binancePerpResp with
    | Except.error e => (1, Except.error (PipelineError.requestError e))
    | Except.ok info => (1, (BinancePerpFetcher.parse_symbols info).mapError PipelineError.genericError)
  | FetcherKind.bybit =>
    match BybitFetcher.get_exchange_info env.bybitScript with
    | (n, Except.error e) => (n, Except.error (PipelineError.requestError e))
    | (n, Except.ok info) => (n, (BybitFetcher.parse_symbols info).mapError PipelineError.genericError)

/-- Observable outcome of one run of `main`'s `try` block: requests
issued, process exit code (`sys.exit(1)` in both handlers, 0 on fall
through), and the caught error if any. -/
structure RunResult where
  netCalls : Nat
  exit : Nat
  error : Option PipelineError
deriving Repr

/-- The `try` block of `main` (after argument parsing): resolve the
fetcher, fetch, parse, write; each failure is caught by its handler and
turns into exit code 1 with nothing written.  `dst` is `--dst`, defaulting
to `artifact/<market>.csv`. -/
def runMain (market : String) (dst : Option String) (env : NetEnv) (fs : FS) : RunResult × FS :=
  let dstPath :=
    match dst with
    | some d => d
    | none => "artifact/" ++ market ++ ".csv"
  match get_fetcher market with
  | Except.error ce => ({ netCalls := 0, exit := 1, error := some (PipelineError.configError ce) }, fs)
  | Except.ok fetcher =>
    match runFetchParse fetcher env with
    | (n, Except.error pe) => ({ netCalls := n, exit := 1, error := some pe }, fs)
    | (n, Except.ok symbols) =>
      ({ netCalls := n, exit := 0, error := none }, write_csv symbols dstPath fs)

/-- The last filter entry carrying a given type tag, if any: what the
overwrite-on-match scan ends up holding. -/
def lastMatching (tag : String) (filters : List BnFilter) : Option BnFilter :=
  (filters.filter (fun f => f.filterType = tag)).getLast?

lemma scanFilters_aux (fl : List BnFilter) (a b : Option BnFilter) :
    fl.foldl
      (fun acc filter_info =>
        if filter_info.filterType = "PRICE_FILTER" then (some filter_info, acc.2)
        else if filter_info.filterType = "LOT_SIZE" then (acc.1, some filter_info)
        else acc)
      (a, b)
    = ((lastMatching "PRICE_FILTER" fl).or a, (lastMatching "LOT_SIZE" fl).or b) := by
  induction fl using List.reverseRecOn generalizing a b with
  | nil => simp [lastMatching]
  | append_singleton fl x ih =>
    rw [List.foldl_append]
    rw [ih a b]
    by_cases hp : x.filterType = "PRICE_FILTER"
    · simp [lastMatching, List.filter_append, hp, List.getLast?_concat]
    · by_cases hq : x.filterType = "LOT_SIZE"
      · simp [lastMatching, List.filter_append, hp, hq, List.getLast?_concat]
      · simp [lastMatching, List.filter_append, hp, hq]

/-- The scan keeps exactly the last PRICE_FILTER and last LOT_SIZE entries. -/
lemma scanFilters_eq_lastMatching (fl : List BnFilter) :
    scanFilters fl = (lastMatching "PRICE_FILTER" fl, lastMatching "LOT_SIZE" fl) := by
  rw [scanFilters, scanFilters_aux]
  simp

/-- Elements on which the per-element parser yields nothing can be
filtered out of `collectRecords` without changing the result. -/
lemma collectRecords_filter (p : α → Bool) (f : α → Except String (List Record))
    (hf : ∀ x, p x = false → f x = Except.ok []) :
    ∀ l : List α, collectRecords f l = collectRecords f (l.filter p)
  | [] => rfl
  | x :: xs => by
    by_cases hx : p x
    · rw [List.filter_cons, if_pos hx]
      unfold collectRecords
      rw [collectRecords_filter p f hf xs]
    · rw [List.filter_cons, if_neg (by simp [hx])]
      conv_lhs => rw [collectRecords]
      rw [hf x (by simp [hx])]
      rw [collectRecords_filter p f hf xs]
      cases collectRecords f (xs.filter p) <;> simp

/-- On an all-successful script, one category's pagination consumes
exactly the pages up to and including the first stopping page and returns
their instruments, tagged, in order. -/
lemma fetchCategory_ok (category : String) :
    ∀ pages : List BybitResult,
      BybitFetcher.fetchCategory category (pages.map Except.ok)
      = ((specPagesFetched pages).length,
         Except.ok ((specPagesFetched pages).flatMap (fun page => page.list.map (tagCategory category))))
  | [] => rfl
  | page :: rest => by
    by_cases hs : stopPage page
    · simp [BybitFetcher.fetchCategory, specPagesFetched, hs]
    · simp only [List.map_cons, BybitFetcher.fetchCategory, hs, if_neg, Bool.false_eq_true,
        if_false, specPagesFetched]
      rw [fetchCategory_ok category rest]
      simp [Nat.add_comm]

/-- Whether the final scripted page (if any) triggers the stop test. -/
def lastStops (pages : List BybitResult) : Bool :=
  match pages.getLast? with
  | some page => stopPage page
  | none => false

/-- When no page before the last one stops the loop and the last one
does, the fetched prefix is the whole script. -/
lemma specPagesFetched_all :
    ∀ pages : List BybitResult,
      (∀ p ∈ pages.dropLast, stopPage p = false) → lastStops pages = true →
      specPagesFetched pages = pages
  | [], _, h2 => by simp [lastStops] at h2
  | [page], _, h2 => by
    simp [lastStops] at h2
    simp [specPagesFetched, h2]
  | page :: next :: rest, h1, h2 => by
    have hp : stopPage page = false := by
      apply h1
      simp [List.dropLast]
    rw [specPagesFetched, if_neg (by simp [hp])]
    rw [specPagesFetched_all (next :: rest) _ _]
    · intro p hp2
      apply h1
      simp [List.dropLast, hp2]
    · simpa [lastStops, List.getLast?_cons_cons] using h2

/-- A one-element list is parsed exactly as its element. -/
lemma collectRecords_singleton (f : α → Except String (List Record)) (x : α) :
    collectRecords f [x] = f x := by
  cases h : f x <;> simp [collectRecords, h]

/-- An element of `getLast?` is an element of the list. -/
lemma mem_of_getLast?_eq (l : List α) (a : α) (h : l.getLast? = some a) : a ∈ l := by
  obtain ⟨hne, rfl⟩ := List.mem_getLast?_eq_getLast (by simp [h] : a ∈ l.getLast?)
  exact List.getLast_mem hne

/-- Complete case analysis of the Binance Spot parser on a one-instrument
payload: either nothing is emitted (inactive status or a missing filter),
or exactly one record is emitted, built from the last matching filters and
the instrument's identity fields. -/
lemma binanceSpot_singleton_cases (s : BnSymbolInfo) (recs : List Record)
    (hparse : BinanceSpotFetcher.parse_symbols { symbols := [s] } = Except.ok recs) :
    (recs = [] ∧ (¬ s.status = some "TRADING"
        ∨ lastMatching "PRICE_FILTER" s.filters = none
        ∨ lastMatching "LOT_SIZE" s.filters = none))
    ∨ ∃ pf qf sy ba qa,
        s.status = some "TRADING"
        ∧ lastMatching "PRICE_FILTER" s.filters = some pf
        ∧ lastMatching "LOT_SIZE" s.filters = some qf
        ∧ s.symbol = some sy ∧ s.baseAsset = some ba ∧ s.quoteAsset = some qa
        ∧ recs = [{ symbol := sy, base := ba, quote := qa, instrument := "spot",
                    priceTick := pf.tickSize.getD "", szTick := qf.stepSize.getD "" }] := by
  have hps : BinanceSpotFetcher.parseOne s = Except.ok recs := by
    rw [BinanceSpotFetcher.parse_symbols] at hparse
    simpa [collectRecords_singleton] using hparse
  by_cases hst : s.status = some "TRADING"
  · rcases hscan : scanFilters s.filters with ⟨op, oq⟩
    have hlm := scanFilters_eq_lastMatching s.filters
    rw [hscan] at hlm
    obtain ⟨hop, hoq⟩ := Prod.ext_iff.mp hlm
    rw [BinanceSpotFetcher.parseOne, if_neg (by simp [hst]), hscan] at hps
    cases op with
    | none =>
      cases oq <;>
        exact Or.inl ⟨(Except.ok.inj hps).symm, Or.inr (Or.inl hop.symm)⟩
    | some pf =>
      cases oq with
      | none => exact Or.inl ⟨(Except.ok.inj hps).symm, Or.inr (Or.inr hoq.symm)⟩
      | some qf =>
        cases hs1 : s.symbol with
        | none => rw [hs1] at hps; simp [getKey] at hps
        | some sy =>
          cases hs2 : s.baseAsset with
          | none => rw [hs1, hs2] at hps; simp [getKey] at hps
          | some ba =>
            cases hs3 : s.quoteAsset with
            | none => rw [hs1, hs2, hs3] at hps; simp [getKey] at hps
            | some qa =>
              rw [hs1, hs2, hs3] at hps
              simp only [getKey] at hps
              exact Or.inr ⟨pf, qf, sy, ba, qa, hst, hop.symm, hoq.symm, rfl, rfl, rfl,
                (Except.ok.inj hps).symm⟩
  · rw [BinanceSpotFetcher.parseOne, if_pos (by simp [hst])] at hps
    exact Or.inl ⟨(Except.ok.inj hps).symm, Or.inl hst⟩

/-- Complete case analysis of the Binance Perpetual parser on a
one-instrument payload (the source duplicates the Spot logic with
instrument `'perp'`). -/
lemma binancePerp_singleton_cases (s : BnSymbolInfo) (recs : List Record)
    (hparse : BinancePerpFetcher.parse_symbols { symbols := [s] } = Except.ok recs) :
    (recs = [] ∧ (¬ s.status = some "TRADING"
        ∨ lastMatching "PRICE_FILTER" s.filters = none
        ∨ lastMatching "LOT_SIZE" s.filters = none))
    ∨ ∃ pf qf sy ba qa,
        s.status = some "TRADING"
        ∧ lastMatching "PRICE_FILTER" s.filters = some pf
        ∧ lastMatching "LOT_SIZE" s.filters = some qf
        ∧ s.symbol = some sy ∧ s.baseAsset = some ba ∧ s.quoteAsset = some qa
        ∧ recs = [{ symbol := sy, base := ba, quote := qa, instrument := "perp",
                    priceTick := pf.tickSize.getD "", szTick := qf.stepSize.getD "" }] := by
  have hps : BinancePerpFetcher.parseOne s = Except.ok recs := by
    rw [BinancePerpFetcher.parse_symbols] at hparse
    simpa [collectRecords_singleton] using hparse
  by_cases hst : s.status = some "TRADING"
  · rcases hscan : scanFilters s.filters with ⟨op, oq⟩
    have hlm := scanFilters_eq_lastMatching s.filters
    rw [hscan] at hlm
    obtain ⟨hop, hoq⟩ := Prod.ext_iff.mp hlm
    rw [BinancePerpFetcher.parseOne, if_neg (by simp [hst]), hscan] at hps
    cases op with
    | none =>
      cases oq <;>
        exact Or.inl ⟨(Except.ok.inj hps).symm, Or.inr (Or.inl hop.symm)⟩
    | some pf =>
      cases oq with
      | none => exact Or.inl ⟨(Except.ok.inj hps).symm, Or.inr (Or.inr hoq.symm)⟩
      | some qf =>
        cases hs1 : s.symbol with
        | none => rw [hs1] at hps; simp [getKey] at hps
        | some sy =>
          cases hs2 : s.baseAsset with
          | none => rw [hs1, hs2] at hps; simp [getKey] at hps
          | some ba =>
            cases hs3 : s.quoteAsset with
            | none => rw [hs1, hs2, hs3] at hps; simp [getKey] at hps
            | some qa =>
              rw [hs1, hs2, hs3] at hps
              simp only [getKey] at hps
              exact Or.inr ⟨pf, qf, sy, ba, qa, hst, hop.symm, hoq.symm, rfl, rfl, rfl,
                (Except.ok.inj hps).symm⟩
  · rw [BinancePerpFetcher.parseOne, if_pos (by simp [hst])] at hps
    exact Or.inl ⟨(Except.ok.inj hps).symm, Or.inl hst⟩

/-- The Bybit parser on a one-instrument payload with active status:
parsing succeeds exactly when the three identity keys are present, and
then emits the single record determined by category and filters. -/
lemma bybit_singleton_ok (t : BybitInst) (recs : List Record)
    (hst : t.status = some "Trading")
    (hparse : BybitFetcher.parse_symbols { result := { list := [t], nextPageCursor := none } }
      = Except.ok recs) :
    ∃ sy bc qc, t.symbol = some sy ∧ t.baseCoin = some bc ∧ t.quoteCoin = some qc ∧
      recs = [{ symbol := sy, base := bc, quote := qc,
                instrument :=
                  if t.category.getD "spot" = "spot" then "spot"
                  else if t.category.getD "spot" = "linear" then "perp"
                  else if t.category.getD "spot" = "inverse" then "inverse"
                  else t.category.getD "spot",
                priceTick := (t.priceFilter.getD { tickSize := none }).tickSize.getD "",
                szTick :=
                  if t.category.getD "spot" = "linear" ∨ t.category.getD "spot" = "inverse"
                  then (t.lotSizeFilter.getD { qtyStep := none, basePrecision := none }).qtyStep.getD ""
                  else (t.lotSizeFilter.getD { qtyStep := none, basePrecision := none }).basePrecision.getD "" }] := by
  have hps : BybitFetcher.parseOne t = Except.ok recs := by
    rw [BybitFetcher.parse_symbols] at hparse
    simpa [collectRecords_singleton] using hparse
  rw [BybitFetcher.parseOne, if_neg (by simp [hst])] at hps
  cases hs1 : t.symbol with
  | none => rw [hs1] at hps; simp [getKey] at hps
  | some sy =>
    cases hs2 : t.baseCoin with
    | none => rw [hs1, hs2] at hps; simp [getKey] at hps
    | some bc =>
      cases hs3 : t.quoteCoin with
      | none => rw [hs1, hs2, hs3] at hps; simp [getKey] at hps
      | some qc =>
        rw [hs1, hs2, hs3] at hps
        simp only [getKey] at hps
        exact ⟨sy, bc, qc, rfl, rfl, rfl, (Except.ok.inj hps).symm⟩

/-- C6: an instrument whose status is not the variant's active-trading
marker is never emitted as a record: each parser's output is unchanged
when the payload is restricted to the instruments carrying the marker,
which is case-sensitive and is `'TRADING'` for the Binance variants but
`'Trading'` for the Bybit variant. -/
theorem parse_skips_inactive_status :
    (∀ info : BnExchangeInfo,
        BinanceSpotFetcher.parse_symbols info
          = BinanceSpotFetcher.parse_symbols
              { symbols := info.symbols.filter (fun s => s.status = some "TRADING") })
    ∧ (∀ info : BnExchangeInfo,
        BinancePerpFetcher.parse_symbols info
          = BinancePerpFetcher.parse_symbols
              { symbols := info.symbols.filter (fun s => s.status = some "TRADING") })
    ∧ (∀ info : BybitExchangeInfo,
        BybitFetcher.parse_symbols info
          = BybitFetcher.parse_symbols
              { result := { list := info.result.list.filter (fun s => s.status = some "Trading"),
                            nextPageCursor := info.result.nextPageCursor } }) := by
  refine ⟨fun info => ?_, fun info => ?_, fun info => ?_⟩
  · exact collectRecords_filter _ _
      (fun s hsf => by
        simp only [decide_eq_false_iff_not] at hsf
        rw [BinanceSpotFetcher.parseOne, if_pos hsf])
      info.symbols
  · exact collectRecords_filter _ _
      (fun s hsf => by
        simp only [decide_eq_false_iff_not] at hsf
        rw [BinancePerpFetcher.parseOne, if_pos hsf])
      info.symbols
  · exact collectRecords_filter _ _
      (fun s hsf => by
        simp only [decide_eq_false_iff_not] at hsf
        rw [BybitFetcher.parseOne, if_pos hsf])
      info.result.list

/-- C7: for a Multi-Category (Bybit) instrument, `szTick` comes from the
lot-size filter's `qtyStep` for the linear and inverse categories and
from `basePrecision` for spot, while `priceTick` always comes from the
price filter's `tickSize`. -/
theorem bybit_tick_selection (t : BybitInst) (pf : BybitPriceFilter)
    (lsf : BybitLotSizeFilter) (qs bp ts : String) (recs : List Record)
    (hst : t.status = some "Trading")
    (hpf : t.priceFilter = some pf) (hlf : t.lotSizeFilter = some lsf)
    (hq : lsf.qtyStep = some qs) (hb : lsf.basePrecision = some bp)
    (hts : pf.tickSize = some ts)
    (hparse : BybitFetcher.parse_symbols { result := { list := [t], nextPageCursor := none } }
      = Except.ok recs) :
    ((t.category = some "linear" ∨ t.category = some "inverse") → recs.map Record.szTick = [qs])
    ∧ (t.category = some "spot" → recs.map Record.szTick = [bp])
    ∧ recs.map Record.priceTick = [ts] := by
  obtain ⟨sy, bc, qc, h1, h2, h3, hr⟩ := bybit_singleton_ok t recs hst hparse
  subst hr
  refine ⟨fun hc => ?_, fun hc => ?_, ?_⟩
  · rcases hc with hc | hc <;> simp [hc, hlf, hq]
  · simp [hc, hlf, hb]
  · simp [hpf, hts]

/-- C7 witness: a concrete linear-category instrument with
`qtyStep = "0.001"` and `tickSize = "0.01"` yields exactly those ticks. -/
theorem bybit_tick_selection_witness :
    ([({ symbol := "BTCUSDT", base := "BTC", quote := "USDT", instrument := "perp",
          priceTick := "0.01", szTick := "0.001" } : Record)]).map Record.szTick = ["0.001"]
    ∧ ([({ symbol := "BTCUSDT", base := "BTC", quote := "USDT", instrument := "perp",
            priceTick := "0.01", szTick := "0.001" } : Record)]).map Record.priceTick = ["0.01"] := by
  have h := bybit_tick_selection
    { status := some "Trading", symbol := some "BTCUSDT", baseCoin := some "BTC",
      quoteCoin := some "USDT", priceFilter := some { tickSize := some "0.01" },
      lotSizeFilter := some { qtyStep := some "0.001", basePrecision := some "0.0001" },
      category := some "linear" }
    { tickSize := some "0.01" }
    { qtyStep := some "0.001", basePrecision := some "0.0001" }
    "0.001" "0.0001" "0.01"
    [{ symbol := "BTCUSDT", base := "BTC", quote := "USDT", instrument := "perp",
       priceTick := "0.01", szTick := "0.001" }]
    rfl rfl rfl rfl rfl rfl (by rfl)
  exact ⟨h.1 (Or.inl rfl), h.2.2⟩

/-- C8: the Multi-Category parser maps the instrument's category to the
taxonomy spot→spot, linear→perp, inverse→inverse, and passes any other
category string through verbatim as the `instrument` value. -/
theorem bybit_category_mapping (t : BybitInst) (recs : List Record)
    (hst : t.status = some "Trading")
    (hparse : BybitFetcher.parse_symbols { result := { list := [t], nextPageCursor := none } }
      = Except.ok recs) :
    (t.category = some "spot" → recs.map Record.instrument = ["spot"])
    ∧ (t.category = some "linear" → recs.map Record.instrument = ["perp"])
    ∧ (t.category = some "inverse" → recs.map Record.instrument = ["inverse"])
    ∧ ∀ c : String, t.category = some c → c ≠ "spot" → c ≠ "linear" → c ≠ "inverse" →
        recs.map Record.instrument = [c] := by
  obtain ⟨sy, bc, qc, h1, h2, h3, hr⟩ := bybit_singleton_ok t recs hst hparse
  subst hr
  refine ⟨fun hc => ?_, fun hc => ?_, fun hc => ?_, fun c hc hc1 hc2 hc3 => ?_⟩
  · simp [hc]
  · simp [hc]
  · simp [hc]
  · simp [hc, hc1, hc2, hc3]

/-- C8 witness: a concrete unrecognized category `'option'` is passed
through verbatim, and a concrete `'inverse'` instrument maps to
`'inverse'`. -/
theorem bybit_category_mapping_witness :
    ([({ symbol := "BTCUSD", base := "BTC", quote := "USD", instrument := "option",
          priceTick := "", szTick := "" } : Record)]).map Record.instrument = ["option"] := by
  have h := bybit_category_mapping
    { status := some "Trading", symbol := some "BTCUSD", baseCoin := some "BTC",
      quoteCoin := some "USD", priceFilter := none, lotSizeFilter := none,
      category := some "option" }
    [{ symbol := "BTCUSD", base := "BTC", quote := "USD", instrument := "option",
       priceTick := "", szTick := "" }]
    rfl (by rfl)
  exact h.2.2.2 "option" rfl (by decide) (by decide) (by decide)

/-- C10: when a Binance instrument's filter list has several entries with
the same type tag, both Binance parsers take `priceTick` and `szTick`
from the LAST matching PRICE_FILTER / LOT_SIZE entry in list order. -/
theorem binance_last_filter_wins (s : BnSymbolInfo) (pf qf : BnFilter)
    (recs recs2 : List Record)
    (hst : s.status = some "TRADING")
    (hp : (s.filters.filter (fun f => f.filterType = "PRICE_FILTER")).getLast? = some pf)
    (hq : (s.filters.filter (fun f => f.filterType = "LOT_SIZE")).getLast? = some qf)
    (hsp : BinanceSpotFetcher.parse_symbols { symbols := [s] } = Except.ok recs)
    (hpp : BinancePerpFetcher.parse_symbols { symbols := [s] } = Except.ok recs2) :
    recs.map (fun r => (r.priceTick, r.szTick)) = [(pf.tickSize.getD "", qf.stepSize.getD "")]
    ∧ recs2.map (fun r => (r.priceTick, r.szTick)) = [(pf.tickSize.getD "", qf.stepSize.getD "")] := by
  constructor
  · rcases binanceSpot_singleton_cases s recs hsp with ⟨hnil, h⟩ | hfound
    · rcases h with h | h | h
      · exact absurd hst h
      · simp only [lastMatching] at h; rw [hp] at h; simp at h
      · simp only [lastMatching] at h; rw [hq] at h; simp at h
    · obtain ⟨pf2, qf2, sy, ba, qa, _, hp2, hq2, _, _, _, hr⟩ := hfound
      simp only [lastMatching] at hp2 hq2
      rw [hp] at hp2
      rw [hq] at hq2
      obtain rfl : pf2 = pf := (Option.some.inj hp2).symm
      obtain rfl : qf2 = qf := (Option.some.inj hq2).symm
      subst hr
      simp
  · rcases binancePerp_singleton_cases s recs2 hpp with ⟨hnil, h⟩ | hfound
    · rcases h with h | h | h
      · exact absurd hst h
      · simp only [lastMatching] at h; rw [hp] at h; simp at h
      · simp only [lastMatching] at h; rw [hq] at h; simp at h
    · obtain ⟨pf2, qf2, sy, ba, qa, _, hp2, hq2, _, _, _, hr⟩ := hfound
      simp only [lastMatching] at hp2 hq2
      rw [hp] at hp2
      rw [hq] at hq2
      obtain rfl : pf2 = pf := (Option.some.inj hp2).symm
      obtain rfl : qf2 = qf := (Option.some.inj hq2).symm
      subst hr
      simp

/-- C10 witness: a payload whose filter list holds two PRICE_FILTER and
two LOT_SIZE entries; both parsers take the ticks of the later entries. -/
theorem binance_last_filter_wins_witness :
    ([({ symbol := "ETHUSDT", base := "ETH", quote := "USDT", instrument := "spot",
          priceTick := "0.01", szTick := "0.001" } : Record)]).map
        (fun r => (r.priceTick, r.szTick)) = [("0.01", "0.001")]
    ∧ ([({ symbol := "ETHUSDT", base := "ETH", quote := "USDT", instrument := "perp",
            priceTick := "0.01", szTick := "0.001" } : Record)]).map
        (fun r => (r.priceTick, r.szTick)) = [("0.01", "0.001")] := by
  exact binance_last_filter_wins
    { status := some "TRADING", symbol := some "ETHUSDT", baseAsset := some "ETH",
      quoteAsset := some "USDT",
      filters := [{ filterType := "PRICE_FILTER", tickSize := some "0.1", stepSize := none },
                  { filterType := "LOT_SIZE", tickSize := none, stepSize := some "1" },
                  { filterType := "PRICE_FILTER", tickSize := some "0.01", stepSize := none },
                  { filterType := "LOT_SIZE", tickSize := none, stepSize := some "0.001" }] }
    { filterType := "PRICE_FILTER", tickSize := some "0.01", stepSize := none }
    { filterType := "LOT_SIZE", tickSize := none, stepSize := some "0.001" }
    [{ symbol := "ETHUSDT", base := "ETH", quote := "USDT", instrument := "spot",
       priceTick := "0.01", szTick := "0.001" }]
    [{ symbol := "ETHUSDT", base := "ETH", quote := "USDT", instrument := "perp",
       priceTick := "0.01", szTick := "0.001" }]
    rfl (by rfl) (by rfl) (by rfl) (by rfl)

/-- C3: the Multi-Category fetcher visits the categories in the order
spot, linear, inverse; within a category it consumes scripted pages up to
and including the first page with no next-cursor token or with zero
instruments (whichever comes first), keeping every fetched page's
instruments tagged with the category; and when each category's script
ends with such a stopping page (none earlier), the returned payload's
list is exactly the concatenation, in fetch order, of all pages'
instruments across the three categories. -/
theorem bybit_pagination (script : String → List BybitResult)
    (h : ∀ c ∈ ["spot", "linear", "inverse"],
        (∀ p ∈ (script c).dropLast, stopPage p = false) ∧ lastStops (script c) = true) :
    (∀ (category : String) (pages : List BybitResult),
        BybitFetcher.fetchCategory category (pages.map Except.ok)
        = ((specPagesFetched pages).length,
           Except.ok ((specPagesFetched pages).flatMap
             (fun page => page.list.map (tagCategory category)))))
    ∧ (BybitFetcher.get_exchange_info (fun c => (script c).map Except.ok)).2
      = Except.ok { result :=
          { list := ["spot", "linear", "inverse"].flatMap
              (fun c => (script c).flatMap (fun page => page.list.map (tagCategory c))),
            nextPageCursor := none } } := by
  refine ⟨fun category pages => fetchCategory_ok category pages, ?_⟩
  have hs := h "spot" (by simp)
  have hl := h "linear" (by simp)
  have hi := h "inverse" (by simp)
  rw [BybitFetcher.get_exchange_info]
  rw [fetchCategory_ok, fetchCategory_ok, fetchCategory_ok]
  rw [specPagesFetched_all _ hs.1 hs.2, specPagesFetched_all _ hl.1 hl.2,
    specPagesFetched_all _ hi.1 hi.2]
  simp

/-- C3 witness: a two-page spot script (first page has a cursor, second
has none) plus single stopping pages for linear and inverse; the fetcher
returns both spot instruments, tagged, and stops each category. -/
theorem bybit_pagination_witness :
    (BybitFetcher.get_exchange_info (fun c =>
      ((if c = "spot" then
          [({ list := [{ status := none, symbol := some "A", baseCoin := none,
                          quoteCoin := none, priceFilter := none, lotSizeFilter := none,
                          category := none }],
               nextPageCursor := some "cursorA" } : BybitResult),
           { list := [{ status := none, symbol := some "B", baseCoin := none,
                         quoteCoin := none, priceFilter := none, lotSizeFilter := none,
                         category := none }],
              nextPageCursor := none }]
        else [({ list := [], nextPageCursor := none } : BybitResult)]).map Except.ok))).2
    = Except.ok { result :=
        { list := [{ status := none, symbol := some "A", baseCoin := none,
                      quoteCoin := none, priceFilter := none, lotSizeFilter := none,
                      category := some "spot" },
                   { status := none, symbol := some "B", baseCoin := none,
                      quoteCoin := none, priceFilter := none, lotSizeFilter := none,
                      category := some "spot" }],
          nextPageCursor := none } } := by
  have h := bybit_pagination (fun c =>
    if c = "spot" then
      [({ list := [{ status := none, symbol := some "A", baseCoin := none,
                      quoteCoin := none, priceFilter := none, lotSizeFilter := none,
                      category := none }],
           nextPageCursor := some "cursorA" } : BybitResult),
       { list := [{ status := none, symbol := some "B", baseCoin := none,
                     quoteCoin := none, priceFilter := none, lotSizeFilter := none,
                     category := none }],
          nextPageCursor := none }]
    else [({ list := [], nextPageCursor := none } : BybitResult)]) (by decide)
  exact h.2.trans (by rfl)

/-- Writing a file makes its content readable at that path, whatever was
there before. -/
lemma FS.lookupFile_setFile (fs : FS) (p : String) (c : List (List String)) :
    (fs.setFile p c).lookupFile p = some c := by
  simp [FS.setFile, FS.lookupFile]

/-- C9: `write_csv` writes at the output path exactly the fixed header
row followed by one data row per record in input order, replacing any
existing file, and every directory `os.makedirs` creates for the path's
parent (the parent and its ancestors) exists afterwards. -/
theorem write_csv_contract (symbols : List Record) (output_path : String) (fs : FS) :
    (write_csv symbols output_path fs).lookupFile output_path
      = some (fieldnames :: symbols.map recordRow)
    ∧ ∀ d ∈ makedirs (dirname output_path), d ∈ (write_csv symbols output_path fs).dirs := by
  constructor
  · rw [write_csv]
    exact FS.lookupFile_setFile _ _ _
  · intro d hd
    rw [write_csv]
    by_cases hdir : dirname output_path = ""
    · rw [hdir] at hd
      simp [makedirs, makedirsChain] at hd
    · simp only [FS.setFile, ne_eq, hdir, not_false_eq_true, if_true]
      exact List.mem_append.mpr (Or.inl hd)

/-- C9 witness: writing one record to `artifact/binance.csv` over an
empty filesystem creates the `artifact` directory and stores the header
plus the one data row. -/
theorem write_csv_contract_witness :
    (write_csv
        [{ symbol := "BTCUSDT", base := "BTC", quote := "USDT", instrument := "spot",
           priceTick := "0.01", szTick := "0.00001" }]
        "artifact/binance.csv" { dirs := [], files := [] }).lookupFile "artifact/binance.csv"
      = some [["symbol", "base", "quote", "instrument", "priceTick", "szTick"],
              ["BTCUSDT", "BTC", "USDT", "spot", "0.01", "0.00001"]]
    ∧ "artifact" ∈ (write_csv
        [{ symbol := "BTCUSDT", base := "BTC", quote := "USDT", instrument := "spot",
           priceTick := "0.01", szTick := "0.00001" }]
        "artifact/binance.csv" { dirs := [], files := [] }).dirs := by
  have h := write_csv_contract
    [{ symbol := "BTCUSDT", base := "BTC", quote := "USDT", instrument := "spot",
       priceTick := "0.01", szTick := "0.00001" }]
    "artifact/binance.csv" { dirs := [], files := [] }
  exact ⟨h.1.trans (by rfl), h.2 "artifact" (by decide)⟩

/-- C5: the write step runs only after parsing fully succeeds — in every
run in which fetcher selection, fetching or parsing raises an error, the
filesystem is left untouched (no output file, not even a partial one). -/
theorem no_write_on_error (market : String) (dst : Option String) (env : NetEnv) (fs : FS)
    (pe : PipelineError) (h : (runMain market dst env fs).1.error = some pe) :
    (runMain market dst env fs).2 = fs := by
  unfold runMain at h ⊢
  cases hg : get_fetcher market with
  | error ce => simp only [hg]
  | ok fetcher =>
    simp only [hg] at h ⊢
    rcases hf : runFetchParse fetcher env with ⟨n, r⟩
    simp only [hf] at h ⊢
    cases r with
    | error e => simp
    | ok symbols => simp at h

/-- C5 witness: a run that fails fetcher selection (market `kraken`)
leaves the empty filesystem unchanged. -/
theorem no_write_on_error_witness :
    (runMain "kraken" none
      { binanceSpotResp := Except.error "down", binancePerpResp := Except.error "down",
        bybitScript := fun _ => [] }
      { dirs := [], files := [] }).2 = { dirs := [], files := [] } := by
  exact no_write_on_error "kraken" none
    { binanceSpotResp := Except.error "down", binancePerpResp := Except.error "down",
      bybitScript := fun _ => [] }
    { dirs := [], files := [] }
    (PipelineError.configError { unsupported := "kraken", supported := supported_markets })
    (by rfl)

/-- C4: for every market name outside the supported set, fetcher
selection raises a configuration error listing the supported names, the
run issues zero network requests, and the caught error is not classified
as a network failure. -/
theorem unsupported_market_config_error (market : String) (dst : Option String)
    (env : NetEnv) (fs : FS) (h : market ∉ supported_markets) :
    get_fetcher market
      = Except.error { unsupported := market, supported := supported_markets }
    ∧ (runMain market dst env fs).1.netCalls = 0
    ∧ (runMain market dst env fs).1.error
        = some (PipelineError.configError { unsupported := market, supported := supported_markets })
    ∧ (PipelineError.configError
        { unsupported := market, supported := supported_markets }).isNetwork = false := by
  have h1 : ¬ market = "binance" := fun hx => h (by rw [hx]; simp [supported_markets])
  have h2 : ¬ market = "binanceperp" := fun hx => h (by rw [hx]; simp [supported_markets])
  have h3 : ¬ market = "bybit" := fun hx => h (by rw [hx]; simp [supported_markets])
  have hg : get_fetcher market
      = Except.error { unsupported := market, supported := supported_markets } := by
    rw [get_fetcher, if_neg h1, if_neg h2, if_neg h3]
  refine ⟨hg, ?_, ?_, rfl⟩ <;> simp [runMain, hg]

/-- C4 witness: the market name `kraken` is rejected before any request,
with the supported names in the error. -/
theorem unsupported_market_config_error_witness :
    get_fetcher "kraken"
      = Except.error { unsupported := "kraken", supported := supported_markets }
    ∧ (runMain "kraken" none
        { binanceSpotResp := Except.error "down", binancePerpResp := Except.error "down",
          bybitScript := fun _ => [] }
        { dirs := [], files := [] }).1.netCalls = 0
    ∧ (runMain "kraken" none
        { binanceSpotResp := Except.error "down", binancePerpResp := Except.error "down",
          bybitScript := fun _ => [] }
        { dirs := [], files := [] }).1.error
        = some (PipelineError.configError { unsupported := "kraken", supported := supported_markets })
    ∧ (PipelineError.configError
        { unsupported := "kraken", supported := supported_markets }).isNetwork = false := by
  exact unsupported_market_config_error "kraken" none
    { binanceSpotResp := Except.error "down", binancePerpResp := Except.error "down",
      bybitScript := fun _ => [] }
    { dirs := [], files := [] }
    (by decide)

/-- C2 counterexample: a network failure, a parsing failure and a
configuration failure all terminate with the same exit status 1, so the
network exit status is NOT distinct from the exit status of other
failures.  The error classifications certify the failure kinds. -/
theorem exit_status_not_distinct :
    (runMain "binance" none
      { binanceSpotResp := Except.error "connection refused",
        binancePerpResp := Except.error "connection refused",
        bybitScript := fun _ => [] }
      { dirs := [], files := [] }).1.exit = 1
    ∧ (runMain "binance" none
        { binanceSpotResp := Except.ok { symbols :=
            [{ status := some "TRADING", symbol := none, baseAsset := none,
                quoteAsset := none,
                filters := [{ filterType := "PRICE_FILTER", tickSize := some "0.01",
                               stepSize := none },
                            { filterType := "LOT_SIZE", tickSize := none,
                               stepSize := some "0.001" }] }] },
          binancePerpResp := Except.error "down", bybitScript := fun _ => [] }
        { dirs := [], files := [] }).1.exit = 1
    ∧ (runMain "kraken" none
        { binanceSpotResp := Except.error "down", binancePerpResp := Except.error "down",
          bybitScript := fun _ => [] }
        { dirs := [], files := [] }).1.exit = 1
    ∧ (runMain "binance" none
        { binanceSpotResp := Except.error "connection refused",
          binancePerpResp := Except.error "connection refused",
          bybitScript := fun _ => [] }
        { dirs := [], files := [] }).1.error
        = some (PipelineError.requestError "connection refused")
    ∧ (runMain "binance" none
        { binanceSpotResp := Except.ok { symbols :=
            [{ status := some "TRADING", symbol := none, baseAsset := none,
                quoteAsset := none,
                filters := [{ filterType := "PRICE_FILTER", tickSize := some "0.01",
                               stepSize := none },
                            { filterType := "LOT_SIZE", tickSize := none,
                               stepSize := some "0.001" }] }] },
          binancePerpResp := Except.error "down", bybitScript := fun _ => [] }
        { dirs := [], files := [] }).1.error
        = some (PipelineError.genericError "KeyError: symbol") := by
  exact ⟨rfl, rfl, rfl, rfl, rfl⟩

/-- C2 amended: every caught failure — network or otherwise — terminates
with the same exit status 1 (0 on success); the kinds are distinguished
only by which handler catches them and by the printed message prefix,
`Error fetching data:` for network errors versus `Error:` otherwise. -/
theorem exit_code_uniform (market : String) (dst : Option String) (env : NetEnv) (fs : FS) :
    ((runMain market dst env fs).1.error.isSome → (runMain market dst env fs).1.exit = 1)
    ∧ ((runMain market dst env fs).1.error = none → (runMain market dst env fs).1.exit = 0)
    ∧ (∀ m, (PipelineError.requestError m).printed = "Error fetching data: " ++ m)
    ∧ (∀ m, (PipelineError.genericError m).printed = "Error: " ++ m)
    ∧ (∀ m, (PipelineError.requestError m).isNetwork = true)
    ∧ (∀ e : ConfigError, (PipelineError.configError e).isNetwork = false)
    ∧ (∀ m, (PipelineError.genericError m).isNetwork = false) := by
  refine ⟨?_, ?_, fun m => rfl, fun m => rfl, fun m => rfl, fun e => rfl, fun m => rfl⟩
  · intro h
    unfold runMain
    cases hg : get_fetcher market with
    | error ce => simp [hg]
    | ok fetcher =>
      unfold runMain at h
      simp only [hg] at h ⊢
      rcases hf : runFetchParse fetcher env with ⟨n, r⟩
      simp only [hf] at h ⊢
      cases r with
      | error e => simp
      | ok symbols => simp at h
  · intro h
    unfold runMain
    cases hg : get_fetcher market with
    | error ce =>
      unfold runMain at h
      simp only [hg] at h
      simp at h
    | ok fetcher =>
      unfold runMain at h
      simp only [hg] at h ⊢
      rcases hf : runFetchParse fetcher env with ⟨n, r⟩
      simp only [hf] at h ⊢
      cases r with
      | error e => simp at h
      | ok symbols => simp

/-- C2 amended witness: a concrete network failure exits with status 1. -/
theorem exit_code_uniform_witness :
    (runMain "binance" none
      { binanceSpotResp := Except.error "timeout", binancePerpResp := Except.error "timeout",
        bybitScript := fun _ => [] }
      { dirs := [], files := [] }).1.exit = 1 := by
  have h := exit_code_uniform "binance" none
    { binanceSpotResp := Except.error "timeout", binancePerpResp := Except.error "timeout",
      bybitScript := fun _ => [] }
    { dirs := [], files := [] }
  exact h.1 (by rfl)

/-- C1 counterexample: the Bybit parser emits a record for a `Trading`
instrument that has NO price filter and NO lot-size filter, with empty
`priceTick` and `szTick` — so it is false that every fetcher emits a
record only when both a price-tick and a size-tick value could be
resolved, and false that `priceTick`/`szTick` are always non-empty. -/
theorem bybit_emits_without_resolved_ticks :
    BybitFetcher.parse_symbols
      { result := { list := [{ status := some "Trading", symbol := some "BTCUSDT",
                                baseCoin := some "BTC", quoteCoin := some "USDT",
                                priceFilter := none, lotSizeFilter := none,
                                category := some "spot" }],
                    nextPageCursor := none } }
      = Except.ok [{ symbol := "BTCUSDT", base := "BTC", quote := "USDT",
                     instrument := "spot", priceTick := "", szTick := "" }] := by
  rfl

/-- C1 amended: the Binance Spot and Perpetual parsers emit a record only
when the instrument's filter list holds both a PRICE_FILTER and a
LOT_SIZE entry, and copy `symbol`/`base`/`quote` verbatim from the
payload (hence non-empty exactly when the payload values are); the Bybit
parser instead emits a record for every instrument with status `Trading`,
with `symbol`/`base`/`quote` copied verbatim, even when no price-tick or
size-tick value could be resolved (both then default to the empty
string). -/
theorem parse_record_invariants (s : BnSymbolInfo) (t : BybitInst) (sy bc qc : String) :
    (∀ recs, BinanceSpotFetcher.parse_symbols { symbols := [s] } = Except.ok recs →
        ∀ r ∈ recs,
          (∃ f ∈ s.filters, f.filterType = "PRICE_FILTER")
          ∧ (∃ f ∈ s.filters, f.filterType = "LOT_SIZE")
          ∧ some r.symbol = s.symbol ∧ some r.base = s.baseAsset
          ∧ some r.quote = s.quoteAsset)
    ∧ (∀ recs, BinancePerpFetcher.parse_symbols { symbols := [s] } = Except.ok recs →
        ∀ r ∈ recs,
          (∃ f ∈ s.filters, f.filterType = "PRICE_FILTER")
          ∧ (∃ f ∈ s.filters, f.filterType = "LOT_SIZE")
          ∧ some r.symbol = s.symbol ∧ some r.base = s.baseAsset
          ∧ some r.quote = s.quoteAsset)
    ∧ (t.status = some "Trading" → t.symbol = some sy → t.baseCoin = some bc →
        t.quoteCoin = some qc →
        ∃ recs,
          BybitFetcher.parse_symbols { result := { list := [t], nextPageCursor := none } }
            = Except.ok recs
          ∧ recs.length = 1 ∧ recs.map Record.symbol = [sy]
          ∧ recs.map Record.base = [bc] ∧ recs.map Record.quote = [qc]) := by
  refine ⟨?_, ?_, ?_⟩
  · intro recs hparse r hr
    rcases binanceSpot_singleton_cases s recs hparse with ⟨hnil, _⟩ | hfound
    · subst hnil; simp at hr
    · obtain ⟨pf, qf, sy2, ba, qa, _, hp2, hq2, hsy, hba, hqa, hrec⟩ := hfound
      subst hrec
      have hre := List.mem_singleton.mp hr
      subst hre
      simp only [lastMatching] at hp2 hq2
      have hpm := mem_of_getLast?_eq _ _ hp2
      have hqm := mem_of_getLast?_eq _ _ hq2
      obtain ⟨hmem1, hpred1⟩ := List.mem_filter.mp hpm
      obtain ⟨hmem2, hpred2⟩ := List.mem_filter.mp hqm
      exact ⟨⟨pf, hmem1, by simpa using hpred1⟩, ⟨qf, hmem2, by simpa using hpred2⟩,
        hsy.symm, hba.symm, hqa.symm⟩
  · intro recs hparse r hr
    rcases binancePerp_singleton_cases s recs hparse with ⟨hnil, _⟩ | hfound
    · subst hnil; simp at hr
    · obtain ⟨pf, qf, sy2, ba, qa, _, hp2, hq2, hsy, hba, hqa, hrec⟩ := hfound
      subst hrec
      have hre := List.mem_singleton.mp hr
      subst hre
      simp only [lastMatching] at hp2 hq2
      have hpm := mem_of_getLast?_eq _ _ hp2
      have hqm := mem_of_getLast?_eq _ _ hq2
      obtain ⟨hmem1, hpred1⟩ := List.mem_filter.mp hpm
      obtain ⟨hmem2, hpred2⟩ := List.mem_filter.mp hqm
      exact ⟨⟨pf, hmem1, by simpa using hpred1⟩, ⟨qf, hmem2, by simpa using hpred2⟩,
        hsy.symm, hba.symm, hqa.symm⟩
  · intro hst h1 h2 h3
    refine ⟨[{ symbol := sy, base := bc, quote := qc,
                instrument :=
                  if t.category.getD "spot" = "spot" then "spot"
                  else if t.category.getD "spot" = "linear" then "perp"
                  else if t.category.getD "spot" = "inverse" then "inverse"
                  else t.category.getD "spot",
                priceTick := (t.priceFilter.getD { tickSize := none }).tickSize.getD "",
                szTick :=
                  if t.category.getD "spot" = "linear" ∨ t.category.getD "spot" = "inverse"
                  then (t.lotSizeFilter.getD
                          { qtyStep := none, basePrecision := none }).qtyStep.getD ""
                  else (t.lotSizeFilter.getD
                          { qtyStep := none, basePrecision := none }).basePrecision.getD "" }],
           ?_, rfl, rfl, rfl, rfl⟩
    rw [BybitFetcher.parse_symbols]
    have hsingle : collectRecords BybitFetcher.parseOne [t] = BybitFetcher.parseOne t :=
      collectRecords_singleton _ _
    rw [show ({ result := { list := [t], nextPageCursor := none } } : BybitExchangeInfo).result.list
        = [t] from rfl, hsingle]
    rw [BybitFetcher.parseOne, if_neg (by simp [hst]), h1, h2, h3]
    simp [getKey]

/-- C1 amended witness: a concrete TRADING Binance instrument with both
filters present, and a concrete Trading Bybit instrument with no filters
at all; the Binance record carries both filter tags, the Bybit record is
still emitted with its identity fields copied verbatim. -/
theorem parse_record_invariants_witness :
    (∃ recs,
        BybitFetcher.parse_symbols
          { result := { list := [{ status := some "Trading", symbol := some "XRPUSDT",
                                    baseCoin := some "XRP", quoteCoin := some "USDT",
                                    priceFilter := none, lotSizeFilter := none,
                                    category := some "spot" }],
                        nextPageCursor := none } }
          = Except.ok recs
        ∧ recs.length = 1 ∧ recs.map Record.symbol = ["XRPUSDT"]
        ∧ recs.map Record.base = ["XRP"] ∧ recs.map Record.quote = ["USDT"])
    ∧ ∃ f ∈ [({ filterType := "PRICE_FILTER", tickSize := some "0.01",
                 stepSize := none } : BnFilter),
             { filterType := "LOT_SIZE", tickSize := none, stepSize := some "0.00001" }],
        f.filterType = "PRICE_FILTER" := by
  have h := parse_record_invariants
    { status := some "TRADING", symbol := some "BTCUSDT", baseAsset := some "BTC",
      quoteAsset := some "USDT",
      filters := [{ filterType := "PRICE_FILTER", tickSize := some "0.01", stepSize := none },
                  { filterType := "LOT_SIZE", tickSize := none, stepSize := some "0.00001" }] }
    { status := some "Trading", symbol := some "XRPUSDT", baseCoin := some "XRP",
      quoteCoin := some "USDT", priceFilter := none, lotSizeFilter := none,
      category := some "spot" }
    "XRPUSDT" "XRP" "USDT"
  refine ⟨h.2.2 rfl rfl rfl rfl, ?_⟩
  exact ((h.1
    [{ symbol := "BTCUSDT", base := "BTC", quote := "USDT", instrument := "spot",
        priceTick := "0.01", szTick := "0.00001" }] (by rfl))
    { symbol := "BTCUSDT", base := "BTC", quote := "USDT", instrument := "spot",
      priceTick := "0.01", szTick := "0.00001" } (by simp)).1
